import Mathlib

/-!
Verification development for the `extrablatt` news-extraction library.

The Rust sources are shallowly embedded:
* URLs (`url::Url`) become a record of scheme, host, path and path segments.
* The parsed HTML document (`select::Document`) becomes an arena of raw
  nodes (`Doc`) mirroring the flat node table of the `select` crate, plus an
  inductive tree (`HTree`) used by the recursive document cleaner.
* `f64` arithmetic in the text scorer is modelled with exact rationals; the
  only float operations performed by the scorer (`n * 0.25`, subtraction of
  small integers, squaring, `1/k * 50`, comparisons with `40.0`) are exact
  for every realistic document size, and the saturating `as usize` cast is
  modelled by `f64_as_usize`.
* Strings are Lean `String`s; `str::to_lowercase` is modelled by the ASCII
  `String.toLower` (all inputs considered here are ASCII), and byte lengths
  coincide with character counts on ASCII input.
* The stop-word resource files (`resources/stopwords/*.txt`) are not part of
  the sources; they enter as an abstract assignment of word lists to known
  languages.
-/

namespace Extrablatt

/-- The scorer's punctuation list `PUNCTUATION` from `text.rs` (comma, dot,
double and single quote, bang, question mark, ampersand, dash, slash, colon,
semicolon, parentheses, hash, dollar, percent, star, plus, angle brackets,
equals, at, brackets, backslash, caret, underscore, backtick, braces, pipe,
tilde), written with character codes where a literal would be awkward. -/
def PUNCTUATION : List Char :=
  [',', '.', Char.ofNat 34, Char.ofNat 39, '!', '?', '&', '-', '/', ':', ';',
   '(', ')', '#', '$', '%', '*', '+', '<', '=', '>', '@', '[', Char.ofNat 92,
   ']', '^', '_', Char.ofNat 96, Char.ofNat 123, '|', Char.ofNat 125, '~']

/-- `text.rs::is_punctuation`. -/
def is_punctuation (c : Char) : Bool := PUNCTUATION.contains c

/-- Split a character list at every separator (Rust `str::split` with a
pattern: separators are dropped, empty pieces kept). -/
def splitPredAux (p : Char → Bool) : List Char → List Char → List (List Char)
  | [], cur => [cur.reverse]
  | c :: rest, cur =>
      if p c then cur.reverse :: splitPredAux p rest []
      else splitPredAux p rest (c :: cur)

/-- Rust `str::split` with a character predicate. -/
def splitStr (p : Char → Bool) (s : String) : List String :=
  (splitPredAux p s.data []).map (fun l => ⟨l⟩)

/-- Rust `str::split(sep)` for a one-character separator (every separator
in the sources is a single character). -/
def splitOnChar (sep : Char) (s : String) : List String :=
  splitStr (fun c => c == sep) s

/-- Rust `str::is_empty`. -/
def strIsEmpty (s : String) : Bool := s.data.isEmpty

/-- Rust `str::trim` (ASCII whitespace fragment). -/
def strTrim (s : String) : String :=
  ⟨((s.data.dropWhile Char.isWhitespace).reverse.dropWhile Char.isWhitespace).reverse⟩

/-- Rust `str::to_lowercase` (ASCII fragment). -/
def strLower (s : String) : String := ⟨s.data.map Char.toLower⟩

/-- Rust `str::starts_with` for a literal pattern. -/
def strStartsWith (s pre : String) : Bool := pre.data.isPrefixOf s.data

/-- Rust `str::ends_with` for a literal pattern. -/
def strEndsWith (s suf : String) : Bool := suf.data.isSuffixOf s.data

/-- `ArticleTextNodeExtractor::words`: split on whitespace or punctuation and
drop empty pieces. -/
def words (txt : String) : List String :=
  (splitStr (fun c => c.isWhitespace || is_punctuation c) txt).filter
    (fun s => !strIsEmpty s)

/-- Rust `str::split_whitespace`. -/
def splitWhitespace (s : String) : List String :=
  (splitStr Char.isWhitespace s).filter (fun w => !strIsEmpty w)

/-- Substring containment, modelling `Regex::is_match` for a literal pattern
(and Rust `str::contains`). -/
def strContainsSub (s pat : String) : Bool :=
  (List.range (s.data.length + 1)).any (fun i => pat.data.isPrefixOf (s.data.drop i))

/-! ## Languages and stop words (`language.rs`, `stopwords.rs`) -/

/-- `language.rs::Language`. -/
inductive Language where
  | arabic | russian | dutch | german | english | spanish | french | hebrew
  | italian | korean | norwegian | persian | polish | portuguese | swedish
  | hungarian | finnish | danish | chinese | indonesian | vietnamese
  | swahili | turkish | greek | ukrainian
  | other (s : String)
deriving DecidableEq

/-- The per-language stop-word lists.  The word files under
`resources/stopwords/` are external data (spec §6: "Language/stopword data
(collaborator): `stopword_set(language) -> immutable set of strings`"), so
they are an abstract assignment.  `Language::stopwords` consults it for every
known language and yields nothing for `Other`. -/
def StopwordData := Language → List String

/-- `Language::stopwords`: a word list for each known language, `None` for
`Other`. -/
def Language.stopwords (data : StopwordData) : Language → Option (List String)
  | .other _ => none
  | l => some (data l)

/-- `text.rs::WordsStats`. -/
structure WordsStats where
  word_count : Nat
  stopword_count : Nat
deriving DecidableEq

/-- `Language::stopword_count`: fold over `words txt`, counting all words and
the stop words among them; unavailable when the language has no list. -/
def Language.stopword_count (data : StopwordData) (lang : Language) (txt : String) :
    Option WordsStats :=
  match lang.stopwords data with
  | some stopwords =>
      let p := (words txt).foldl
        (fun (acc : Nat × Nat) word =>
          let sc := if stopwords.contains word then acc.2 + 1 else acc.2
          (acc.1 + 1, sc))
        (0, 0)
      some ⟨p.1, p.2⟩
  | none => none

/-! ## URLs (`url::Url` as used by `extract.rs`) -/

/-- The host of a URL (`url::Host`): a registrable domain name or another
kind of host (IP address). -/
inductive UrlHost where
  | domain (s : String)
  | ip (s : String)
deriving DecidableEq

/-- The projection of `url::Url` used by the classifiers: scheme, host, the
serialized path, and `Url::path_segments()` (which is `None` for
cannot-be-a-base URLs). -/
structure Url where
  scheme : String
  host : Option UrlHost
  path : String
  pathSegments : Option (List String)
deriving DecidableEq

/-- `Url::domain()`: the host if it is a domain name. -/
def Url.domain (u : Url) : Option String :=
  match u.host with
  | some (UrlHost.domain s) => some s
  | _ => none

/-! ## Constants from `article.rs` and the category stoplist -/

/-- `article.rs::ALLOWED_FILE_EXT`. -/
def ALLOWED_FILE_EXT : List String :=
  ["html", "htm", "md", "rst", "aspx", "jsp", "rhtml", "cgi", "xhtml", "jhtml", "asp", "shtml"]

/-- `article.rs::GOOD_SEGMENTS`. -/
def GOOD_SEGMENTS : List String :=
  ["story", "article", "feature", "featured", "slides", "slideshow", "gallery",
   "news", "video", "media", "v", "radio", "press", "graphics", "investigations"]

/-- `article.rs::BAD_SEGMENTS`. -/
def BAD_SEGMENTS : List String :=
  ["careers", "contact", "about", "faq", "terms", "privacy", "advert",
   "preferences", "feedback", "info", "browse", "howto", "account",
   "subscribe", "donate", "shop", "admin"]

/-- `article.rs::BAD_DOMAINS`. -/
def BAD_DOMAINS : List String := ["amazon", "doubleclick", "twitter", "outbrain"]

/-- Modelled from the spec: `stopwords.rs::CATEGORY_STOPWORDS` — the
"stoplist of tracking/ad domains or generic stopword labels" (§4.1) used by
`is_valid_domain` and `is_category` — is referenced from `extract.rs` but its
definition is not among the provided sources; it is modelled here as the
stoplist of generic labels and social/tracking domains the spec describes.
Every universally quantified theorem below is independent of the exact
contents of this list. -/
def CATEGORY_STOPWORDS : List String :=
  ["about", "help", "privacy", "legal", "feedback", "sitemap", "profile",
   "account", "mobile", "facebook", "myspace", "twitter", "linkedin", "bebo",
   "friendster", "stumbleupon", "youtube", "vimeo", "store", "mail",
   "preferences", "maps", "password", "imgur", "flickr", "search",
   "subscription", "itunes", "siteindex", "events", "stop", "jobs", "careers",
   "newsletter", "subscribe", "academy", "shopping", "purchase", "site-map",
   "shop", "donate", "contribute", "archive", "team", "announcements", "tour",
   "foundation", "investors", "terms", "link", "apps", "volunteer",
   "management", "consulting", "general", "insurance", "blog", "masthead",
   "contact", "tos", "regulations", "index"]

/-! ## The date-segment patterns (`date.rs`) -/

/-- A separator of the character class `[-\\/\.]` of the date regexes. -/
def isDateSepChar (c : Char) : Bool :=
  c == '-' || c == Char.ofNat 92 || c == '/' || c == '.'

/-- The month alternative `0[1-9]|1[012]` (two digits). -/
def numMonth (a b : Char) : Bool :=
  (a == '0' && b.isDigit && b != '0') || (a == '1' && (b == '0' || b == '1' || b == '2'))

/-- The day class `0[1-9]|[12][0-9]|3[01]`. -/
def numDay (a b : Char) : Bool :=
  (a == '0' && b.isDigit && b != '0') || ((a == '1' || a == '2') && b.isDigit)
    || (a == '3' && (b == '0' || b == '1'))

/-- A word character, modelling the regex class `\w` (ASCII fragment). -/
def isWordChar (c : Char) : Bool := c.isAlphanum || c == '_'

/-- First character of the textual month alternative `[jfmasond]`. -/
def isMonthStart (c : Char) : Bool :=
  c == 'j' || c == 'f' || c == 'm' || c == 'a' || c == 's' || c == 'o'
    || c == 'n' || c == 'd'

/-- Match `[-\\/\.](0[1-9]|[12][0-9]|3[01])` at the head of `l`. -/
def sepDayAt (l : List Char) : Bool :=
  match l with
  | s :: a :: b :: _ => isDateSepChar s && numDay a b
  | _ => false

/-- Match the month alternative `(0[1-9]|1[012]|([jfmasond]\w{2,7}))` followed
by a separator and a day at the head of `l` (all alternation and repetition
choices are tried, which matches `is_match`'s existential semantics). -/
def monthSepDayAt (l : List Char) : Bool :=
  (match l with
   | a :: b :: rest => numMonth a b && sepDayAt rest
   | _ => false)
  || (match l with
      | m :: rest =>
          isMonthStart m &&
            (List.range 6).any (fun k =>
              decide ((rest.take (k + 2)).length = k + 2)
                && (rest.take (k + 2)).all isWordChar
                && sepDayAt (rest.drop (k + 2)))
      | [] => false)

/-- Match `(19|20)\d\d[-\\/\.]` then month, separator and day at the head. -/
def ymdAt (l : List Char) : Bool :=
  match l with
  | c0 :: c1 :: c2 :: c3 :: s :: rest =>
      ((c0 == '1' && c1 == '9') || (c0 == '2' && c1 == '0'))
        && c2.isDigit && c3.isDigit && isDateSepChar s && monthSepDayAt rest
  | _ => false

/-- Match a separator followed by `(19|20)\d\d` at the head of `l`. -/
def sepYearAt (l : List Char) : Bool :=
  match l with
  | s :: c0 :: c1 :: c2 :: c3 :: _ =>
      isDateSepChar s && ((c0 == '1' && c1 == '9') || (c0 == '2' && c1 == '0'))
        && c2.isDigit && c3.isDigit
  | _ => false

/-- Match month, separator, day, separator, year at the head of `l`. -/
def mdySuffixAt (l : List Char) : Bool :=
  match l with
  | s :: a :: b :: rest => isDateSepChar s && numDay a b && sepYearAt rest
  | _ => false

/-- Match the `M_D_Y` pattern at the head of `l`. -/
def mdyAt (l : List Char) : Bool :=
  (match l with
   | a :: b :: rest => numMonth a b && mdySuffixAt rest
   | _ => false)
  || (match l with
      | m :: rest =>
          isMonthStart m &&
            (List.range 6).any (fun k =>
              decide ((rest.take (k + 2)).length = k + 2)
                && (rest.take (k + 2)).all isWordChar
                && mdySuffixAt (rest.drop (k + 2)))
      | [] => false)

/-- `date.rs::RE_DATE_SEGMENTS_Y_M_D.is_match`: the pattern
`(?mi)(19|20)\d\d[-\\/\.](0[1-9]|1[012]|([jfmasond]\w{2,7}))[-\\/\.](0[1-9]|[12][0-9]|3[01])`
matched anywhere in the string (case-insensitivity realized by lowercasing). -/
def re_date_segments_y_m_d (s : String) : Bool :=
  let l := s.data.map Char.toLower
  (List.range (l.length + 1)).any (fun i => ymdAt (l.drop i))

/-- `date.rs::RE_DATE_SEGMENTS_M_D_Y.is_match`. -/
def re_date_segments_m_d_y (s : String) : Bool :=
  let l := s.data.map Char.toLower
  (List.range (l.length + 1)).any (fun i => mdyAt (l.drop i))

/-! ## The URL classifier (`extract.rs`) -/

/-- `extract.rs::count_dashes_and_underscores`. -/
def count_dashes_and_underscores (s : String) : Nat × Nat :=
  s.data.foldl
    (fun (acc : Nat × Nat) c =>
      if c == '-' then (acc.1 + 1, acc.2)
      else if c == '_' then (acc.1, acc.2 + 1)
      else acc)
    (0, 0)

/-- `extract.rs::is_valid_domain`: candidate labels must contain every base
label, must not form a mobile subdomain and must avoid the stoplists;
non-domain hosts fall back to host equality. -/
def is_valid_domain (url base : Url) : Bool :=
  match url.host with
  | some (UrlHost.domain domain) =>
      match base.domain with
      | some bd =>
          let parentDomains := splitOnChar '.' bd
          let candidateDomains := splitOnChar '.' domain
          if parentDomains.all (fun d => candidateDomains.contains d) then
            if candidateDomains.any (fun d => d == "m" || d == "i") then false
            else if candidateDomains.all
                (fun d => !CATEGORY_STOPWORDS.contains d && !BAD_DOMAINS.contains d) then
              true
            else false
          else false
      | none => false
  | _ => base.host == url.host

/-- Models `last_segment.rsplitn(2, '.')`: the part after the last dot and
the part before it, or `none` when the segment has no dot. -/
def splitExt (s : String) : Option (String × String) :=
  if s.data.contains '.' then
    let idx := s.data.length - 1 - (s.data.reverse.indexOf '.')
    some (⟨s.data.take idx⟩, ⟨s.data.drop (idx + 1)⟩)
  else none

/-- The news slug-title check of `Extractor::is_article` (lines 431–452):
more than 4 dashes or more than 4 underscores in the trailing slug, and no
token (split on the dominant delimiter) equal to the second-level domain
label. -/
def slugAccepts (article : Url) (last_segment : String) : Bool :=
  let counts := count_dashes_and_underscores last_segment
  if counts.1 > 4 || counts.2 > 4 then
    match article.host with
    | some (UrlHost.domain domain) =>
        match ((splitOnChar '.' domain).reverse).get? 1 with
        | some dom =>
            let delim := if counts.2 > counts.1 then '_' else '-'
            (splitOnChar delim last_segment).all (fun s => s != dom)
        | none => true
    | _ => true
  else false

/-- The tail of `Extractor::is_article` after the extension check: the news
slug-title check (which accepts immediately), the two date-pattern checks,
and the good-segment allowlist. -/
def articleSlugDates (article : Url) (path_segments : List String) : Bool :=
  let slugAccept :=
    match path_segments.getLast? with
    | none => false
    | some last_segment => slugAccepts article last_segment
  if slugAccept then true
  else if re_date_segments_y_m_d article.path then true
  else if re_date_segments_m_d_y article.path then true
  else if path_segments.length > 1
      && path_segments.any (fun s => GOOD_SEGMENTS.contains s) then true
  else false

/-- `Extractor::is_article` (`extract.rs` lines 382–472). -/
def is_article (article base : Url) : Bool :=
  if strStartsWith article.path "#" then false
  else if !is_valid_domain article base then false
  else
    match article.pathSegments with
    | none => false
    | some segments =>
        if segments.any (fun s => BAD_SEGMENTS.contains (strLower (strLower s))) then false
        else
          let path_segments := segments.filterMap (fun s =>
            let s := strLower (strLower s)
            if strIsEmpty s then none else some s)
          match path_segments.getLast? with
          | none => false
          | some last_segment =>
              let rest := path_segments.dropLast
              match splitExt last_segment with
              | some (seg, ext) =>
                  let extension := strLower ext
                  if ALLOWED_FILE_EXT.contains extension then
                    articleSlugDates article
                      (if seg.length > 10 then rest ++ [seg] else rest)
                  else if ext.data.all Char.isDigit then
                    articleSlugDates article (rest ++ [last_segment])
                  else false
              | none => articleSlugDates article (rest ++ [last_segment])

/-- The per-segment loop of `Extractor::is_category`: any second segment, or
a first segment that is a category stop word or `index.html`, rejects. -/
def categorySegmentsOk : Option (List String) → Bool
  | none => true
  | some [] => true
  | some [s] => !(CATEGORY_STOPWORDS.contains s || s == "index.html")
  | some (_ :: _ :: _) => false

/-- `Extractor::is_category` (`extract.rs` lines 474–495). -/
def is_category (category base : Url) : Bool :=
  if strStartsWith category.path "/#" then false
  else if !categorySegmentsOk category.pathSegments then false
  else if category.scheme != base.scheme then false
  else is_valid_domain category base

/-! ## The parsed document (`select::Document` as a flat node arena)

The `select` crate stores a parsed document as a vector of raw nodes in
document (pre-)order; every node handle is an index into that vector with a
parent pointer.  Children, siblings, ancestors and descendants are derived
from the parent pointers and index order. -/

/-- The payload of a raw node: an element with a tag name and attributes, or
a text node. -/
inductive NodeData where
  | element (name : String) (attrs : List (String × String))
  | text (s : String)
deriving DecidableEq

/-- A raw node of the arena: parent pointer plus payload. -/
structure RawNode where
  parent : Option Nat
  data : NodeData
deriving DecidableEq

/-- A parsed document: the flat node table, in document order. -/
structure Doc where
  nodes : List RawNode
deriving DecidableEq

/-- `Node::name`: the tag name of an element node. -/
def nameOf (d : Doc) (i : Nat) : Option String :=
  match d.nodes.get? i with
  | some ⟨_, NodeData.element n _⟩ => some n
  | _ => none

/-- `Node::as_text`: the contents of a text node (an element yields
nothing). -/
def asText (d : Doc) (i : Nat) : Option String :=
  match d.nodes.get? i with
  | some ⟨_, NodeData.text s⟩ => some s
  | _ => none

/-- `Node::attr`: the value of the attribute named `key` on an element. -/
def attrOf (d : Doc) (i : Nat) (key : String) : Option String :=
  match d.nodes.get? i with
  | some ⟨_, NodeData.element _ attrs⟩ =>
      (attrs.find? (fun kv => kv.1 == key)).map (fun kv => kv.2)
  | _ => none

/-- `Node::parent` as an index. -/
def parentOf (d : Doc) (i : Nat) : Option Nat :=
  match d.nodes.get? i with
  | some nd => nd.parent
  | none => none

/-- The chain of strict ancestors of node `i` (fuelled walk over parent
pointers). -/
def ancestorChain (d : Doc) : Nat → Nat → List Nat
  | 0, _ => []
  | fuel + 1, i =>
      match parentOf d i with
      | some p => p :: ancestorChain d fuel p
      | none => []

/-- All strict ancestors of node `i`. -/
def ancestors (d : Doc) (i : Nat) : List Nat :=
  ancestorChain d d.nodes.length i

/-- The children of node `i`, in document order. -/
def childrenOf (d : Doc) (i : Nat) : List Nat :=
  (List.range d.nodes.length).filter (fun j => parentOf d j == some i)

/-- `Node::descendants().count()`. -/
def descendantsCount (d : Doc) (i : Nat) : Nat :=
  ((List.range d.nodes.length).filter (fun j => (ancestors d j).contains i)).length

/-- `Node::find(pred)`: the descendants of `i` satisfying `pred`, in
document order. -/
def findDesc (d : Doc) (i : Nat) (pred : Nat → Bool) : List Nat :=
  (List.range d.nodes.length).filter
    (fun j => (ancestors d j).contains i && pred j)

/-- `TextContainer::first_children_text`: the first text child of a node. -/
def first_children_text (d : Doc) (i : Nat) : Option String :=
  (childrenOf d i).findSome? (fun j => asText d j)

/-- `Node::prev`: the nearest preceding sibling (same parent, smaller
index). -/
def prevOf (d : Doc) (i : Nat) : Option Nat :=
  ((List.range i).filter (fun j => parentOf d j == parentOf d i)).getLast?

/-! ## Exact rationals standing in for `f64`

The scorer's floating-point arithmetic (`n * 0.25`, differences of small
integers, squaring, `(1.0 / k) * 50.0`, absolute value, comparisons with
`40.0`) is exact at the magnitudes any document produces, so it is
modelled by exact rational arithmetic.  A dedicated structure is used so
that every operation is structurally recursive and evaluates inside the
kernel. -/

/-- An exact rational, kept normalized with a positive denominator. -/
structure F64 where
  num : Int
  den : Nat
deriving DecidableEq

/-- Fuelled Euclidean gcd (structural recursion, `a + 1` fuel suffices). -/
def gcdF : Nat → Nat → Nat → Nat
  | 0, _, b => b
  | fuel + 1, a, b => if a = 0 then b else gcdF fuel (b % a) a

/-- Build a normalized rational from a numerator and a non-zero
denominator. -/
def F64.mk' (n : Int) (d : Int) : F64 :=
  let neg : Bool := (decide (n < 0)) != (decide (d < 0))
  let na := n.natAbs
  let da := d.natAbs
  let g := gcdF (na + 1) na da
  let q := na / g
  ⟨if neg then -(q : Int) else (q : Int), da / g⟩

/-- Embed a natural number. -/
def F64.ofNat (n : Nat) : F64 := ⟨(n : Int), 1⟩

/-- Addition. -/
def F64.add (a b : F64) : F64 :=
  F64.mk' (a.num * (b.den : Int) + b.num * (a.den : Int)) ((a.den * b.den : Nat) : Int)

/-- Subtraction. -/
def F64.sub (a b : F64) : F64 :=
  F64.mk' (a.num * (b.den : Int) - b.num * (a.den : Int)) ((a.den * b.den : Nat) : Int)

/-- Multiplication. -/
def F64.mul (a b : F64) : F64 :=
  F64.mk' (a.num * b.num) ((a.den * b.den : Nat) : Int)

/-- Division (denominators stay positive via `mk'`). -/
def F64.div (a b : F64) : F64 :=
  F64.mk' (a.num * (b.den : Int)) (b.num * (a.den : Int))

/-- Negation. -/
def F64.neg (a : F64) : F64 := ⟨-a.num, a.den⟩

/-- `f64::abs`. -/
def F64.abs (a : F64) : F64 := if a.num < 0 then ⟨-a.num, a.den⟩ else a

/-- Strict comparison (cross multiplication; denominators positive). -/
def F64.lt (a b : F64) : Bool := a.num * (b.den : Int) < b.num * (a.den : Int)

/-- Non-strict comparison. -/
def F64.le (a b : F64) : Bool := a.num * (b.den : Int) ≤ b.num * (a.den : Int)

/-! ## The text-node scorer (`text.rs`) -/

/-- `TextNodeFind::is_text_node`: `<p>`, `<pre>` and `<td>` elements. -/
def is_text_node (d : Doc) (i : Nat) : Bool :=
  match nameOf d i with
  | some n => n == "p" || n == "pre" || n == "td"
  | none => false

/-- `TextNodeFind::is_bad`: `<figure>`, `<media>` and `<aside>` subtrees are
skipped during candidate search. -/
def tnfIsBad (d : Doc) (i : Nat) : Bool :=
  match nameOf d i with
  | some n => n == "figure" || n == "media" || n == "aside"
  | none => false

/-- The iterator loop of `TextNodeFind::next`: walk the node table from
`next`, skipping the descendants of bad nodes, yielding text-node
candidates.  One fuel unit is spent per loop iteration; `d.nodes.length`
iterations always suffice because the cursor strictly increases. -/
def textNodeFindAux (d : Doc) : Nat → Nat → List Nat
  | 0, _ => []
  | fuel + 1, next =>
      if next < d.nodes.length then
        let node := next
        let nextAfter :=
          if tnfIsBad d node then next + 1 + descendantsCount d node else next + 1
        if is_text_node d node then node :: textNodeFindAux d fuel nextAfter
        else textNodeFindAux d fuel nextAfter
      else []

/-- `ArticleTextNodeExtractor::nodes_to_check`. -/
def nodes_to_check (d : Doc) : List Nat :=
  textNodeFindAux d d.nodes.length 0

/-- `ArticleTextNodeExtractor::is_high_link_density`.  The division and
comparison are performed on exact rationals. -/
def is_high_link_density (d : Doc) (i : Nat) : Bool :=
  let links :=
    (findDesc d i (fun j => nameOf d j == some "a")).filterMap
      (fun j => first_children_text d j)
  match asText d i with
  | some s =>
      let words_number := (splitWhitespace s).length
      if words_number == 0 then true
      else
        let p := links.foldl
          (fun (acc : Nat × Nat) n => (acc.1 + 1, acc.2 + (splitWhitespace n).length))
          (0, 0)
        if p.1 == 0 then false
        else
          F64.le (F64.ofNat 1)
            (F64.mul (F64.div (F64.ofNat p.2) (F64.ofNat words_number)) (F64.ofNat p.1))
  | none => links.length > 0

/-- The body of the `while let` loop in
`ArticleTextNodeExtractor::is_boostable`.  The loop condition
`node.prev().filter(|n| n.is(Name("p")))` does not depend on the loop
state, so the same sibling `sib` is examined on every iteration; the
`steps_away` counter is checked against `MAX_STEPSAWAY_FROM_NODE = 3`
before each examination.  `fuel = 4` iterations always suffice. -/
def boostLoop (d : Doc) (data : StopwordData) (lang : Language) (sib : Nat) :
    Nat → Nat → Bool
  | 0, _ => false
  | fuel + 1, steps_away =>
      if steps_away ≥ 3 then false
      else
        match (first_children_text d sib).bind
            (fun txt => Language.stopword_count data lang txt) with
        | some stats =>
            if stats.stopword_count > 5 then true
            else boostLoop d data lang sib fuel (steps_away + 1)
        | none => boostLoop d data lang sib fuel (steps_away + 1)

/-- `ArticleTextNodeExtractor::is_boostable`. -/
def is_boostable (d : Doc) (data : StopwordData) (lang : Language) (i : Nat) : Bool :=
  match prevOf d i with
  | some sib =>
      if nameOf d sib == some "p" then boostLoop d data lang sib 4 0
      else false
  | none => false

/-- Rust's saturating float-to-`usize` cast (`boost_score as usize`):
negative values clamp to zero, non-negative values truncate. -/
def f64_as_usize (q : F64) : Nat :=
  if q.num < 0 then 0 else q.num.toNat / q.den

/-- The candidate list of `calculate_best_node`: text-node candidates that
are not link-dense and have a first-child text with stop-word count above
two, paired with their word statistics. -/
def txt_nodes (d : Doc) (data : StopwordData) (lang : Language) :
    List (Nat × WordsStats) :=
  ((nodes_to_check d).filter (fun n => !is_high_link_density d n)).filterMap
    (fun node =>
      match (first_children_text d node).bind
          (fun txt => Language.stopword_count data lang txt) with
      | some stats =>
          if stats.stopword_count > 2 then some (node, stats) else none
      | none => none)

/-- One scored candidate of the main loop of `calculate_best_node`:
enumeration position, node index, word statistics, the final
`boost_score` (an exact rational standing for the `f64`), and the
`upscore` contributed to the ancestors. -/
structure CandidateScore where
  pos : Nat
  node : Nat
  stats : WordsStats
  boost : F64
  upscore : Nat
deriving DecidableEq

/-- The `boost_score` of one candidate in the main loop of
`calculate_best_node` (`text.rs` lines 185–203): `50 / starting_boost` when
boostable, overwritten for the last quarter of more than 15 candidates by
the quadratic penalty `-booster^2` (`booster.powf(2.0) * -1.0`), clamped to
`5.0` when its magnitude (plus the constant `negative_scoring = 0.0`)
exceeds `40.0`. -/
def boostOf (d : Doc) (data : StopwordData) (lang : Language) (n i : Nat)
    (sb : F64) (node : Nat) : F64 :=
  let b0 : F64 :=
    if is_boostable d data lang node then
      F64.mul (F64.div (F64.ofNat 1) sb) (F64.ofNat 50)
    else F64.ofNat 0
  let negative_scoring : F64 := F64.ofNat 0
  let bottom : F64 := F64.mul (F64.ofNat n) (F64.div (F64.ofNat 1) (F64.ofNat 4))
  if n > 15 then
    if F64.le (F64.ofNat (n - i)) bottom then
      let booster : F64 := F64.sub bottom (F64.ofNat (n - i))
      let b : F64 := F64.mul (F64.mul booster booster) (F64.neg (F64.ofNat 1))
      if F64.lt (F64.ofNat 40) (F64.add b.abs negative_scoring) then F64.ofNat 5
      else b
    else b0
  else b0

/-- The `starting_boost` update: incremented once per boostable candidate. -/
def nextSb (d : Doc) (data : StopwordData) (lang : Language) (sb : F64)
    (node : Nat) : F64 :=
  if is_boostable d data lang node then F64.add sb (F64.ofNat 1) else sb

/-- The main scoring loop of `calculate_best_node` (`text.rs` lines
184–205), producing one `CandidateScore` per candidate.  `n` is
`nodes_number`, `i` the enumeration index and `sb` the running
`starting_boost`. -/
def candidateEntriesAux (d : Doc) (data : StopwordData) (lang : Language)
    (n : Nat) : List (Nat × WordsStats) → Nat → F64 → List CandidateScore
  | [], _, _ => []
  | (node, stats) :: rest, i, sb =>
      let b1 := boostOf d data lang n i sb node
      let upscore := stats.stopword_count + f64_as_usize b1
      ⟨i, node, stats, b1, upscore⟩ ::
        candidateEntriesAux d data lang n rest (i + 1) (nextSb d data lang sb node)

/-- All scored candidates of `calculate_best_node`, with
`starting_boost = 1.0` initially. -/
def candidateEntries (d : Doc) (data : StopwordData) (lang : Language) :
    List CandidateScore :=
  candidateEntriesAux d data lang (txt_nodes d data lang).length
    (txt_nodes d data lang) 0 (F64.ofNat 1)

/-- `nodes_scores.entry(k).or_insert((0,0))` followed by `score += add` and
`cnt += 1`, on the association list `(key, score, cnt)` kept in insertion
order. -/
def bumpEntry (m : List (Nat × Nat × Nat)) (k add : Nat) : List (Nat × Nat × Nat) :=
  if m.any (fun e => e.1 == k) then
    m.map (fun e => if e.1 == k then (k, e.2.1 + add, e.2.2 + 1) else e)
  else m ++ [(k, add, 1)]

/-- The ancestor-score aggregation of `calculate_best_node` (`text.rs`
lines 207–231): each candidate adds its full `upscore` to its parent, half
to its grandparent and a third to its great-grandparent.  The result is the
contents of the `nodes_scores` hash map, as an association list in
insertion order. -/
def nodes_scores (d : Doc) (data : StopwordData) (lang : Language) :
    List (Nat × Nat × Nat) :=
  (candidateEntries d data lang).foldl
    (fun m e =>
      match parentOf d e.node with
      | some parent =>
          let m := bumpEntry m parent e.upscore
          match parentOf d parent with
          | some parent_parent =>
              let m := bumpEntry m parent_parent (e.upscore / 2)
              match parentOf d parent_parent with
              | some parent_2 => bumpEntry m parent_2 (e.upscore / 3)
              | none => m
          | none => m
      | none => m)
    []

/-- One step of the winner-selection loop of `calculate_best_node`: an entry
with a strictly greater score takes over `(index, top_score)`. -/
def selStep (acc : Option Nat × Nat) (e : Nat × Nat × Nat) : Option Nat × Nat :=
  if e.2.1 > acc.2 then (some e.1, e.2.1) else acc

/-- The winner-selection loop of `calculate_best_node` (`text.rs` lines
234–241): `index` starts as the first key the map yields, `top_score` as 0,
and every entry with a strictly greater score takes over.  `entries` is the
map's contents in its iteration order. -/
def selectBest (entries : List (Nat × Nat × Nat)) : Option Nat :=
  (entries.foldl selStep (entries.head?.map (fun e => e.1), 0)).1

/-- `ArticleTextNodeExtractor::calculate_best_node`, parametrized by the
iteration order `iter` in which the `HashMap` yields its entries: `iter`
ranges over the permutations of `nodes_scores d data lang`.  The returned
index is the article body node, when one is found. -/
def calculate_best_node (d : Doc) (data : StopwordData) (lang : Language)
    (iter : List (Nat × Nat × Nat)) : Option Nat :=
  selectBest iter

/-! ## The document cleaner (`clean.rs`)

The cleaner is a recursive walk over one subtree, so it is embedded over an
inductive tree of elements and text nodes. -/

/-- A subtree handed to the document cleaner. -/
inductive HTree where
  | elem (name : String) (attrs : List (String × String)) (children : List HTree)
  | text (s : String)

/-- The tag name of a tree node. -/
def HTree.tagName : HTree → Option String
  | .elem n _ _ => some n
  | .text _ => none

/-- The children of a tree node. -/
def HTree.children : HTree → List HTree
  | .elem _ _ cs => cs
  | .text _ => []

/-- `Node::attr` on a tree node. -/
def HTree.attr : HTree → String → Option String
  | .elem _ attrs _, key => (attrs.find? (fun kv => kv.1 == key)).map (fun kv => kv.2)
  | .text _, _ => none

/-- `clean.rs::BAD_NODE_NAMES`. -/
def BAD_NODE_NAMES : List String := ["script", "style", "figcaption", "figure", "button"]

/-- `clean.rs::ATTR_TO_CHECK`. -/
def ATTR_TO_CHECK : List String := ["id", "class", "name"]

/-- The plain-substring alternatives of `clean.rs::RE_BAD_NODES_ATTR`
(lower-cased, since matching is case-insensitive; `foot(er|note)?` is the
substring `foot`, and the two spellings of `socialnetworking` coincide once
lower-cased). -/
def badAttrSubstrings : List String :=
  ["combx", "retweet", "mediaarticlerelated", "menucontainer", "navbar",
   "storytopbar-bucket", "utility-bar", "inline-share-tools", "comment",
   "popularquestions", "contact", "foot", "cnn_strycaptiontxt",
   "cnn_html_slideshow", "cnn_strylftcntnt", "links", "shoutbox", "sponsor",
   "tags", "socialnetworking", "cnnstryhghlght", "cnn_stryspcvbx",
   "pagetools", "post-attributes", "welcome_form", "contenttools2",
   "the_answers", "communitypromo", "runaroundleft", "subscribe", "vcard",
   "articleheadings", "date", "popup", "author-dropdown", "tools",
   "socialtools", "byline", "konafilter", "breadcrumbs", "wp-caption-text",
   "legende", "ajoutvideo", "timestamp", "js_replies", "google",
   "styln-briefing-block", "read-more-link", "js-body-read-more"]

/-- The alternatives `[^-]facebook(-broadcasting)?` and `[^-]twitter`: the
pattern preceded by a character other than a dash. -/
def containsPrecededNonDash (s pat : List Char) : Bool :=
  (List.range s.length).any (fun i =>
    decide (0 < i)
      && (match s.get? (i - 1) with
          | some c => decide (c ≠ '-')
          | none => false)
      && pat.isPrefixOf (s.drop i))

/-- `clean.rs::RE_BAD_NODES_ATTR.is_match`: the case-insensitive, multi-line
alternation of boiler-plate markers.  The anchored alternatives `^side$`,
`^inset$`, `^print$`, `^fn$` require a whole line, and `meta$` requires a
line suffix; all other alternatives are substring tests. -/
def reBadNodesAttr (s : String) : Bool :=
  let lstr : String := ⟨s.data.map Char.toLower⟩
  let lines := splitOnChar '\n' lstr
  badAttrSubstrings.any (fun p => strContainsSub lstr p)
    || lines.any (fun l => l == "side" || l == "inset" || l == "print" || l == "fn")
    || lines.any (fun l => strEndsWith l "meta")
    || containsPrecededNonDash lstr.data "facebook".data
    || containsPrecededNonDash lstr.data "twitter".data

/-- The body of `clean.rs::has_bad_attr` over an attribute list: some
checked attribute value matches the boiler-plate pattern. -/
def has_bad_attr_list (attrs : List (String × String)) : Bool :=
  ATTR_TO_CHECK.any (fun a =>
    match ((attrs.find? (fun kv => kv.1 == a)).map (fun kv => kv.2)) with
    | some v => reBadNodesAttr v
    | none => false)

/-- `clean.rs::has_bad_attr` (a text node has no attributes). -/
def has_bad_attr : HTree → Bool
  | .elem _ attrs _ => has_bad_attr_list attrs
  | .text _ => false

/-- `clean.rs::is_bad_node`: the tag name is on the ignore list. -/
def is_bad_node (t : HTree) : Bool :=
  match t.tagName with
  | some n => BAD_NODE_NAMES.contains n
  | none => false

/-- `clean.rs::is_para`: block-level elements that force a line break. -/
def is_para (t : HTree) : Bool :=
  match t.tagName with
  | some n =>
      ["blockquote", "dl", "div", "img", "ol", "p", "pre", "table", "ul"].contains n
  | none => false

mutual

/-- `clean.rs::recur_text` for the `DefaultDocumentCleaner` (`is_good_node`
is the negation of `has_bad_attr`): returns the extended buffer and the
`txt_added` flag.  The body is stated once per constructor so that the
recursion through the child list is structural. -/
def recurText : HTree → String → String × Bool
  | .text _, txt =>
      -- A text node has no tag name (neither a bad name nor a paragraph), no
      -- attributes and no children, so the child loop is empty and the
      -- generic body returns the untouched buffer with `txt_added = false`.
      (txt, false)
  | .elem n attrs cs, txt =>
      let t := HTree.elem n attrs cs
      if is_bad_node t then (txt, false)
      else if !has_bad_attr t then
        let r := childLoop cs txt false false
        let txtOut := if (r.2.1 && is_para t) || r.2.2 then r.1 ++ "\n" else r.1
        (txtOut, r.2.1)
      else (txt, false)

/-- The `for child in node.children()` loop of `recur_text`, with state
`(txt, txt_added, needs_ws)`. -/
def childLoop : List HTree → String → Bool → Bool → String × Bool × Bool
  | [], txt, added, ws => (txt, added, ws)
  | child :: rest, txt, added, ws =>
      let txt := if ws then txt ++ " " else txt
      let ws := false
      match child with
      | .text s =>
          let fragment := strTrim s
          if !strIsEmpty fragment then childLoop rest (txt ++ fragment) true ws
          else childLoop rest txt added ws
      | .elem n attrs cs =>
          if n == "a" then
            let r := recurText (.elem n attrs cs) ""
            if r.2 && added then childLoop rest (txt ++ " " ++ r.1) added true
            else childLoop rest txt added ws
          else
            let r := recurText (.elem n attrs cs) txt
            childLoop rest r.1 added ws

end

/-- `DocumentCleaner::clean_node_text`. -/
def clean_node_text (t : HTree) : String :=
  (recurText t "").1

/-- The subtree of the arena document rooted at node `i`, as a tree for the
cleaner (fuelled by the table size). -/
def subtreeAt (d : Doc) : Nat → Nat → HTree
  | 0, _ => .text ""
  | fuel + 1, i =>
      match d.nodes.get? i with
      | some ⟨_, NodeData.text s⟩ => .text s
      | some ⟨_, NodeData.element n attrs⟩ =>
          .elem n attrs ((childrenOf d i).map (subtreeAt d fuel))
      | none => .text ""

/-! ## Title and text extraction (`extract.rs`) -/

/-- `doc.find(pred)` over the whole document, in document order. -/
def docFind (d : Doc) (pred : Nat → Bool) : List Nat :=
  (List.range d.nodes.length).filter pred

/-- `Extractor::meta_content`: the trimmed `content` attribute of the first
`<meta>` descendant of `<head>` whose attribute `key` equals `val`. -/
def meta_content (d : Doc) (key val : String) : Option String :=
  ((docFind d (fun i =>
        nameOf d i == some "meta" && attrOf d i key == some val
          && (ancestors d i).any (fun a => nameOf d a == some "head"))).filterMap
      (fun i => (attrOf d i "content").map strTrim)).head?

/-- `Extractor::title` (`extract.rs` lines 136–157): the `<h1>` probe via
`Node::as_text`, then `og:title` by `property`, then by `name`, then the
first `<title>` element's `Node::as_text`. -/
def title (d : Doc) : Option String :=
  match ((docFind d (fun i => nameOf d i == some "h1")).filterMap
      (fun i => (asText d i).map strTrim)).head? with
  | some t => some t
  | none =>
      match meta_content d "property" "og:title" with
      | some t => some t
      | none =>
          match meta_content d "name" "og:title" with
          | some t => some t
          | none =>
              match (docFind d (fun i => nameOf d i == some "title")).head? with
              | some i => (asText d i).map strTrim
              | none => none

/-- `Extractor::text`: clean the text of the winning body node, when the
scorer finds one (`iter` is the map iteration order as in
`calculate_best_node`). -/
def extract_text (d : Doc) (data : StopwordData) (lang : Language)
    (iter : List (Nat × Nat × Nat)) : Option String :=
  (calculate_best_node d data lang iter).map
    (fun i => clean_node_text (subtreeAt d d.nodes.length i))

/-! ## The crawl state machine (`newspaper.rs`)

The page fetcher and body reader are external collaborators; a fetch
outcome is an oracle value per URL.  Documents, bodies and URLs are
abstract types. -/

/-- `newspaper.rs::DocumentDownloadState`, over an abstract document type. -/
inductive DDState (D : Type) where
  | notRequested
  | success (received : Nat) (doc : D)
  | noHttpSuccessResponse (received : Nat)
  | httpRequestFailure (received : Nat)
  | documentReadFailure (received : Nat)
deriving DecidableEq

/-- `DocumentDownloadState::is_not_requested`. -/
def DDState.is_not_requested {D : Type} : DDState D → Bool
  | .notRequested => true
  | _ => false

/-- The outcome of reading a response body (`Response::bytes`). -/
inductive BodyOutcome (B : Type) where
  | readErr
  | bytes (b : B)
deriving DecidableEq

/-- The outcome of sending a request (`Client::get(..).send()`): a transport
error, or a response with a success flag and a body. -/
inductive HttpResp (B : Type) where
  | reqErr
  | resp (isSuccess : Bool) (body : BodyOutcome B)
deriving DecidableEq

/-- `error.rs::ExtrablattError`, restricted to what the download paths
produce; a non-success response error keeps its body so that
`advance_non_http_success` can still read it. -/
inductive EError (B : Type) where
  | httpRequestFailure
  | noHttpSuccessResponse (body : BodyOutcome B)
  | readDocumentError
deriving DecidableEq

/-- `DocumentDownloadState::read_response`: read the body and parse it. -/
def read_response {B D : Type} (parse : B → Option D) (body : BodyOutcome B)
    (ts : Nat) : Except (DDState D × EError B) (D × Nat) :=
  match body with
  | .bytes b =>
      match parse b with
      | some doc => .ok (doc, ts)
      | none => .error (.documentReadFailure ts, .readDocumentError)
  | .readErr => .error (.httpRequestFailure ts, .httpRequestFailure)

/-- `DocumentDownloadState::from_response`. -/
def from_response {B D : Type} (parse : B → Option D) (r : HttpResp B)
    (ts : Nat) : Except (DDState D × EError B) (D × Nat) :=
  match r with
  | .resp true body => read_response parse body ts
  | .resp false body => .error (.noHttpSuccessResponse ts, .noHttpSuccessResponse body)
  | .reqErr => .error (.httpRequestFailure ts, .httpRequestFailure)

/-- `DocumentDownloadState::advance_non_http_success`. -/
def advance_non_http_success {B D : Type} (parse : B → Option D)
    (err : EError B) (ts : Nat) : Except (EError B) (D × Nat) :=
  match err with
  | .noHttpSuccessResponse body =>
      match read_response parse body ts with
      | .ok p => .ok p
      | .error (_, e) => .error e
  | e => .error e

/-- The state written back for one fetched URL by `download_articles`
(`newspaper.rs` lines 173–191): success yields `Success`, otherwise the
failure state, except that with `http_success_only` disabled a non-success
body is still parsed opportunistically. -/
def articleNewState {B D : Type} (http_success_only : Bool)
    (parse : B → Option D) (r : HttpResp B) (ts : Nat) : DDState D :=
  match from_response parse r ts with
  | .ok (doc, received) => .success received doc
  | .error (state, err) =>
      if !http_success_only then
        match advance_non_http_success parse err ts with
        | .ok (doc, received) => .success received doc
        | .error _ => state
      else state

/-- `Newspaper::download_articles` (state effect): every article whose state
is `NotRequested` is fetched through the oracle and its entry overwritten;
all other entries are untouched. -/
def download_articles {B D U : Type} (http_success_only : Bool)
    (parse : B → Option D) (oracle : U → HttpResp B × Nat)
    (articles : List (U × DDState D)) : List (U × DDState D) :=
  articles.map (fun e =>
    if e.2.is_not_requested then
      (e.1, articleNewState http_success_only parse (oracle e.1).1 (oracle e.1).2)
    else e)

/-- `map.entry(key).or_insert(NotRequested)` on an association list. -/
def orInsert {U D : Type} [DecidableEq U] (arts : List (U × DDState D)) (u : U) :
    List (U × DDState D) :=
  if arts.any (fun e => e.1 = u) then arts else arts ++ [(u, .notRequested)]

/-- `Newspaper::insert_article_urls`: classify the links of a category
document and insert every article URL as `NotRequested` if absent. -/
def insert_article_urls {U D : Type} [DecidableEq U] (articleUrls : D → List U)
    (arts : List (U × DDState D)) (doc : D) : List (U × DDState D) :=
  (articleUrls doc).foldl (fun a u => orInsert a u) arts

/-- `*map.get_mut(&k).unwrap() = v` on an association list. -/
def setState {C D : Type} [DecidableEq C] (m : List (C × DDState D)) (k : C)
    (v : DDState D) : List (C × DDState D) :=
  m.map (fun e => if e.1 = k then (k, v) else e)

/-- One result-processing step of `Newspaper::download_categories`
(`newspaper.rs` lines 288–316): a parsed response inserts its article URLs
and records `Success`; failures record their failure state, with the
opportunistic-parse fallback when `http_success_only` is disabled (note
that this fallback does not insert article URLs). -/
def downloadCategoryStep {B C D U : Type} [DecidableEq C] [DecidableEq U]
    (http_success_only : Bool) (parse : B → Option D)
    (articleUrls : D → List U) (oracle : C → HttpResp B × Nat)
    (st : List (C × DDState D) × List (U × DDState D)) (cat : C) :
    List (C × DDState D) × List (U × DDState D) :=
  let r := oracle cat
  match from_response parse r.1 r.2 with
  | .ok (doc, received) =>
      (setState st.1 cat (.success received doc),
        insert_article_urls articleUrls st.2 doc)
  | .error (state, err) =>
      if !http_success_only then
        match advance_non_http_success parse err r.2 with
        | .ok (doc, received) => (setState st.1 cat (.success received doc), st.2)
        | .error _ => (setState st.1 cat state, st.2)
      else (setState st.1 cat state, st.2)

/-- `Newspaper::download_categories` (`newspaper.rs` lines 273–318, state
effect): fetch the given categories and process every result. -/
def download_categories {B C D U : Type} [DecidableEq C] [DecidableEq U]
    (http_success_only : Bool) (parse : B → Option D)
    (articleUrls : D → List U) (oracle : C → HttpResp B × Nat)
    (items : List C) (cats : List (C × DDState D))
    (arts : List (U × DDState D)) :
    List (C × DDState D) × List (U × DDState D) :=
  items.foldl (downloadCategoryStep http_success_only parse articleUrls oracle)
    (cats, arts)

/-- `Newspaper::download_all_outstanding_categories`: run
`download_categories` on every category still in `NotRequested`. -/
def download_all_outstanding_categories {B C D U : Type} [DecidableEq C] [DecidableEq U]
    (http_success_only : Bool) (parse : B → Option D)
    (articleUrls : D → List U) (oracle : C → HttpResp B × Nat)
    (cats : List (C × DDState D)) (arts : List (U × DDState D)) :
    List (C × DDState D) × List (U × DDState D) :=
  download_categories http_success_only parse articleUrls oracle
    (cats.filterMap (fun e => if e.2.is_not_requested then some e.1 else none))
    cats arts

/-- Association-list lookup for the state maps. -/
def lookupState {C D : Type} [DecidableEq C] (m : List (C × DDState D)) (k : C) :
    Option (DDState D) :=
  (m.find? (fun e => decide (e.1 = k))).map (fun e => e.2)

/-! ## The article stream (`newspaper.rs::ArticleStream::poll_next`)

`poll_next` is embedded as a pure transition on the stream state; the
readiness of each pending response future at the current poll is part of
the state.  Documents, bodies, URLs and extracted contents are numbers. -/

/-- An article yielded by the stream (`article.rs::Article`, with the
extracted content abstracted to a number). -/
structure MArticle where
  url : Nat
  doc : Nat
  content : Nat
  language : Nat
deriving DecidableEq

/-- The errors a stream item can carry. -/
inductive SErr where
  | fetch (code : Nat)
  | readDoc (body : Nat)
  | incomplete (content : Nat)
deriving DecidableEq

instance {ε α : Type} [DecidableEq ε] [DecidableEq α] : DecidableEq (Except ε α) :=
  fun a b =>
    match a, b with
    | .ok x, .ok y => decidable_of_iff (x = y) (by simp)
    | .error x, .error y => decidable_of_iff (x = y) (by simp)
    | .ok _, .error _ => isFalse (by simp)
    | .error _, .ok _ => isFalse (by simp)

/-- One pending `PaperResponse` future, at the current poll: not yet ready
(a freshly issued request is never ready within the very poll that created
it), or ready with `(url, bytes)` or an error. -/
inductive FetchState where
  | pending (url : Nat)
  | ready (r : Except SErr (Nat × Nat))
deriving DecidableEq

/-- The collaborators the stream consults: the extractor, parser and
completeness policy. -/
structure StreamEnv where
  articleUrls : Nat → List Nat
  parse : Nat → Option Nat
  content : Nat → Nat
  metaLanguage : Nat → Option Nat
  language : Nat
  isComplete : Nat → Bool

/-- The stream state (`newspaper.rs::ArticleStream`): buffered articles,
pending article and category responses, and buffered parsed category
documents. -/
structure StreamState where
  articles : List MArticle
  articleResponses : List FetchState
  categoryResponses : List FetchState
  categories : List (Nat × Nat)
deriving DecidableEq

/-- The value of one `poll_next` call. -/
inductive PollResult where
  | pending
  | readyNone
  | readySome (r : Except SErr MArticle)
deriving DecidableEq

/-- `ArticleStream::find_ready_response`: the first ready future, with its
index. -/
def find_ready_response (items : List FetchState) :
    Option (Nat × Except SErr (Nat × Nat)) :=
  items.enum.findSome? (fun e =>
    match e.2 with
    | .ready r => some (e.1, r)
    | .pending _ => none)

/-- `Vec::swap_remove`. -/
def swapRemove (l : List FetchState) (i : Nat) : List FetchState :=
  match l.getLast? with
  | none => l
  | some last => (l.set i last).dropLast

/-- `ArticleStream::queue_category_articles`: push one freshly issued
(unready) response future per article URL classified in the category
document. -/
def queue_category_articles (env : StreamEnv) (s : StreamState) (doc : Nat) :
    StreamState :=
  { s with
    articleResponses :=
      s.articleResponses ++ (env.articleUrls doc).map (fun u => .pending u) }

/-- The tail of `poll_next` (`newspaper.rs` lines 623–671): poll the pending
article responses and emit the first ready one as an article or error. -/
def pollArticleResponses (env : StreamEnv) (s : StreamState) :
    PollResult × StreamState :=
  match find_ready_response s.articleResponses with
  | some (idx, resp) =>
      let s := { s with articleResponses := swapRemove s.articleResponses idx }
      let item : Except SErr MArticle :=
        match resp with
        | .ok (url, body) =>
            match env.parse body with
            | some doc =>
                let content := env.content doc
                let language := (env.metaLanguage doc).getD env.language
                if env.isComplete content then .ok ⟨url, doc, content, language⟩
                else .error (.incomplete content)
            | none => .error (.readDoc body)
        | .error e => .error e
      (.readySome item, s)
  | none => (.pending, s)

/-- `ArticleStream::poll_next` (`newspaper.rs` lines 580–672). -/
def poll_next (env : StreamEnv) (s : StreamState) : PollResult × StreamState :=
  match s.articles.getLast? with
  | some article =>
      (.readySome (.ok article), { s with articles := s.articles.dropLast })
  | none =>
      if s.articleResponses.isEmpty then
        let s :=
          match s.categories.getLast? with
          | some cd =>
              queue_category_articles env
                { s with categories := s.categories.dropLast } cd.2
          | none => s
        if s.categoryResponses.isEmpty then (.readyNone, s)
        else
          match find_ready_response s.categoryResponses with
          | some (idx, resp) =>
              let s := { s with categoryResponses := swapRemove s.categoryResponses idx }
              match resp with
              | .ok (_, body) =>
                  match env.parse body with
                  | some doc =>
                      pollArticleResponses env (queue_category_articles env s doc)
                  | none => (.readySome (.error (.readDoc body)), s)
              | .error e => (.readySome (.error e), s)
          | none => (.pending, s)
      else pollArticleResponses env s

/-! ## Auxiliary notions used by the theorems -/

mutual

/-- A tree with the children of every node carrying a boiler-plate
attribute removed: the text of such a node and of all its descendants is
gone from the pruned document. -/
def pruneBad : HTree → HTree
  | .text s => .text s
  | .elem n attrs cs =>
      if has_bad_attr (.elem n attrs cs) then .elem n attrs []
      else .elem n attrs (pruneBadList cs)

def pruneBadList : List HTree → List HTree
  | [] => []
  | c :: rest => pruneBad c :: pruneBadList rest

end

/-- The boostability test as the specification words it ("walking up to 3
preceding `<p>` siblings, at least one has stopword count > 5"): the walk
advances to the next preceding sibling at every step.  This definition
follows the specification, not the source; it exists solely to state how
`is_boostable` diverges from it. -/
def spec_is_boostable (d : Doc) (data : StopwordData) (lang : Language) :
    Nat → Nat → Bool
  | 0, _ => false
  | fuel + 1, i =>
      match prevOf d i with
      | some sib =>
          if nameOf d sib == some "p" then
            (match (first_children_text d sib).bind
                (fun txt => Language.stopword_count data lang txt) with
             | some stats => stats.stopword_count > 5
             | none => false)
              || spec_is_boostable d data lang fuel sib
          else false
      | none => false

/-! ## Concrete fixtures for the theorems -/

/-- A stop-word assignment giving every known language a small English
function-word list; used by the concrete fixtures. -/
def testData : StopwordData := fun _ => ["the", "of", "and", "a", "in", "to", "is"]

/-- Fixture: two separated paragraph clusters with identical stop-word
counts, so that two ancestor `<div>`s tie on the accumulated score. -/
def tieDoc : Doc := ⟨[
  ⟨none, .element "html" []⟩,
  ⟨some 0, .element "body" []⟩,
  ⟨some 1, .element "div" []⟩,
  ⟨some 2, .element "p" []⟩,
  ⟨some 3, .text "the of and"⟩,
  ⟨some 1, .element "div" []⟩,
  ⟨some 5, .element "p" []⟩,
  ⟨some 6, .text "the of and"⟩]⟩

/-- Fixture: sixteen sibling paragraphs with three stop words each, enough
candidates (more than 15) to trigger the positional penalty on the last
quarter. -/
def penaltyDoc : Doc := ⟨
  [⟨none, .element "html" []⟩, ⟨some 0, .element "body" []⟩,
   ⟨some 1, .element "div" []⟩] ++
  (List.range 16).flatMap (fun k =>
    [⟨some 2, .element "p" []⟩, ⟨some (3 + 2 * k), .text "the of and"⟩])⟩

/-- Fixture: a candidate paragraph whose immediately preceding `<p>` sibling
has a low stop-word count while the sibling before that has a high one. -/
def siblingDoc : Doc := ⟨[
  ⟨none, .element "div" []⟩,
  ⟨some 0, .element "p" []⟩,
  ⟨some 1, .text "the of and a in to"⟩,
  ⟨some 0, .element "p" []⟩,
  ⟨some 3, .text "hello"⟩,
  ⟨some 0, .element "p" []⟩,
  ⟨some 5, .text "the of and"⟩]⟩

/-- Fixture: a document with a non-empty `<h1>` heading and an `og:title`
meta tag. -/
def titleDoc : Doc := ⟨[
  ⟨none, .element "html" []⟩,
  ⟨some 0, .element "head" []⟩,
  ⟨some 1, .element "meta" [("property", "og:title"), ("content", "Meta Title")]⟩,
  ⟨some 0, .element "body" []⟩,
  ⟨some 3, .element "h1" []⟩,
  ⟨some 4, .text "Headline"⟩]⟩

/-- Fixture: an article URL whose slug has six dash-separated tokens (from
the source's own test suite). -/
def slugUrl : Url :=
  ⟨"https", some (.domain "extrablatt.com"), "/hmm-some-very-long-title-speparated",
    some ["hmm-some-very-long-title-speparated"]⟩

/-- Fixture: the base URL of the six-token slug fixture. -/
def slugBase : Url := ⟨"https", some (.domain "extrablatt.com"), "/", some [""]⟩

/-- Fixture: a candidate URL on an IP host whose slug has exactly five
dash-separated tokens (four dashes). -/
def fiveTokenUrl : Url :=
  ⟨"https", some (.ip "192.168.0.1"), "/a-b-c-d-e", some ["a-b-c-d-e"]⟩

/-- Fixture: the base URL of the five-token slug candidate (same host). -/
def fiveTokenBase : Url := ⟨"https", some (.ip "192.168.0.1"), "/", some [""]⟩

/-- Fixture: a candidate URL on a foreign domain. -/
def foreignUrl : Url := ⟨"https", some (.domain "other.com"), "/x", some ["x"]⟩

/-- Fixture: a base URL not related to `foreignUrl`. -/
def homeBase : Url := ⟨"https", some (.domain "example.com"), "/", some [""]⟩

/-- Fixture: a stream environment in which category document `7` contains
exactly one article link, `42`. -/
def oneLinkEnv : StreamEnv :=
  ⟨fun d => if d == 7 then [42] else [], fun _ => none, id, fun _ => none, 0,
    fun _ => true⟩

/-- Fixture: a stream state with nothing buffered or pending except one
parsed category document, `7`, whose article links are still unqueued. -/
def oneCategoryState : StreamState := ⟨[], [], [], [(1, 7)]⟩

/-! ## Claim theorems -/

/-- C1: with no buffered article, no pending article response and no pending
category response, but one buffered parsed category document containing an
article link, `poll_next` pops the buffered document, queues its article
fetch, and then returns end-of-stream anyway: the stream terminates while
the work just queued from the buffered category document is outstanding,
contradicting the claimed emptiness condition. -/
theorem poll_next_ends_with_queued_article_fetch :
    poll_next oneLinkEnv oneCategoryState =
      (PollResult.readyNone, ⟨[], [.pending 42], [], []⟩) ∧
    (⟨[], [.pending 42], [], []⟩ : StreamState).articleResponses ≠ [] := by
  decide

/-- C4 (divergence witness): for the candidate paragraph of `siblingDoc`,
whose nearest preceding `<p>` sibling has stop-word count 0 while the
sibling before that has count 6, `is_boostable` answers `false` — the loop
re-examines the same nearest sibling on every iteration and never reaches
the stop-word-dense sibling — although the specified walk over up to 3
preceding `<p>` siblings (`spec_is_boostable`) answers `true`. -/
theorem is_boostable_never_advances_past_first_sibling :
    prevOf siblingDoc 5 = some 3 ∧
    ((first_children_text siblingDoc 3).bind
      (fun txt => Language.stopword_count testData .english txt) = some ⟨1, 0⟩) ∧
    prevOf siblingDoc 3 = some 1 ∧
    ((first_children_text siblingDoc 1).bind
      (fun txt => Language.stopword_count testData .english txt) = some ⟨6, 6⟩) ∧
    is_boostable siblingDoc testData .english 5 = false ∧
    spec_is_boostable siblingDoc testData .english 3 5 = true := by
  decide

/-- C7 (divergence witness): `titleDoc` contains a non-empty `<h1>` heading
("Headline"), yet `title` returns the `og:title` meta content: the `<h1>`
probe calls `Node::as_text` on the element itself, which is always `None`
for an element, so the probe can never produce a title. -/
theorem title_ignores_h1_text :
    nameOf titleDoc 4 = some "h1" ∧
    first_children_text titleDoc 4 = some "Headline" ∧
    ("Headline" : String) ≠ "" ∧
    title titleDoc = some "Meta Title" := by
  decide

/-- C2 (counterexample): on `tieDoc` the two `<div>` ancestors (node
indices 2 and 5) tie with accumulated score 3.  Both orders below are
permutations of the computed `nodes_scores` map, i.e. legitimate `HashMap`
iteration orders, yet they elect different winners — and the second elects
node 5, not the lowest tied node index 2.  The winner is therefore chosen
by incidental iteration order, not by a deterministic lowest-index rule. -/
theorem winner_tie_break_depends_on_iteration_order :
    nodes_scores tieDoc testData .english =
      [(2, 3, 1), (1, 2, 2), (0, 2, 2), (5, 3, 1)] ∧
    List.Perm [(5, 3, 1), (2, 3, 1), (1, 2, 2), (0, 2, 2)]
      (nodes_scores tieDoc testData .english) ∧
    calculate_best_node tieDoc testData .english
      (nodes_scores tieDoc testData .english) = some 2 ∧
    calculate_best_node tieDoc testData .english
      [(5, 3, 1), (2, 3, 1), (1, 2, 2), (0, 2, 2)] = some 5 := by
  decide

/-- C3 (counterexample): on `penaltyDoc` (16 candidates, positional penalty
active) the last candidate receives the negative quadratic boost −9, yet
its contributed `upscore` equals its stop-word count 3 — not strictly less —
because the `as usize` cast saturates negative values to zero. -/
theorem negative_boost_contribution_equals_stopword_count :
    (candidateEntries penaltyDoc testData .english).get? 15 =
      some ⟨15, 33, ⟨3, 3⟩, ⟨-9, 1⟩, 3⟩ ∧
    F64.lt ⟨-9, 1⟩ (F64.ofNat 0) = true ∧ ¬ ((3 : Nat) < 3) := by
  decide

/-- C6 (counterexample): `fiveTokenUrl` passes the domain check (identical
hosts), has no blacklisted segment and no extension, its slug splits into
exactly five dash-delimited tokens, and no token can equal a second-level
domain label (the host is an IP address) — yet `is_article` rejects it,
because the code requires strictly more than four delimiter characters
(at least six tokens), not more than four tokens. -/
theorem five_token_slug_not_accepted :
    is_valid_domain fiveTokenUrl fiveTokenBase = true ∧
    fiveTokenUrl.pathSegments = some ["a-b-c-d-e"] ∧
    strLower (strLower "a-b-c-d-e") = "a-b-c-d-e" ∧
    BAD_SEGMENTS.contains "a-b-c-d-e" = false ∧
    splitExt "a-b-c-d-e" = none ∧
    (splitOnChar '-' "a-b-c-d-e").length = 5 ∧
    is_article fiveTokenUrl fiveTokenBase = false := by
  decide

/-- The winner-selection fold of `selectBest`: the running `top_score` bounds
every processed score, never decreases, and the accumulator is either
untouched or set by some processed entry. -/
theorem selStep_fold_spec (l : List (Nat × Nat × Nat)) :
    ∀ acc : Option Nat × Nat,
      (∀ e ∈ l, e.2.1 ≤ (l.foldl selStep acc).2) ∧
      acc.2 ≤ (l.foldl selStep acc).2 ∧
      ((l.foldl selStep acc) = acc ∨
        ∃ e ∈ l, (l.foldl selStep acc) = (some e.1, e.2.1)) := by
  induction l with
  | nil =>
      intro acc
      exact ⟨by simp, le_refl _, Or.inl rfl⟩
  | cons x t ih =>
      intro acc
      obtain ⟨ih1, ih2, ih3⟩ := ih (selStep acc x)
      have hstep : x.2.1 ≤ (selStep acc x).2 ∧ acc.2 ≤ (selStep acc x).2 := by
        unfold selStep
        split
        · exact ⟨le_refl _, by omega⟩
        · exact ⟨by omega, le_refl _⟩
      refine ⟨?_, ?_, ?_⟩
      · intro e he
        rcases List.mem_cons.mp he with rfl | he'
        · simpa using le_trans hstep.1 ih2
        · simpa using ih1 e he'
      · simpa using le_trans hstep.2 ih2
      · rw [List.foldl_cons]
        rcases ih3 with heq | ⟨e, he, heq⟩
        · by_cases hx : x.2.1 > acc.2
          · right
            refine ⟨x, List.mem_cons_self x t, ?_⟩
            rw [heq]
            unfold selStep
            rw [if_pos hx]
          · left
            rw [heq]
            unfold selStep
            rw [if_neg hx]
        · right
          exact ⟨e, List.mem_cons_of_mem x he, heq⟩

/-- When `selectBest` elects a key, that key carries a maximal score among
the map entries. -/
theorem selectBest_max (l : List (Nat × Nat × Nat)) (k : Nat)
    (h : selectBest l = some k) :
    ∃ s c, (k, s, c) ∈ l ∧ ∀ e ∈ l, e.2.1 ≤ s := by
  unfold selectBest at h
  obtain ⟨h1, _, h3⟩ := selStep_fold_spec l (l.head?.map (fun e => e.1), 0)
  rcases h3 with heq | ⟨e, he, heq⟩
  · rw [heq] at h
    cases l with
    | nil => simp at h
    | cons a t =>
        simp only [List.head?_cons, Option.map_some'] at h
        have hk : a.1 = k := by simpa using h
        refine ⟨a.2.1, a.2.2, ?_, ?_⟩
        · have : (k, a.2.1, a.2.2) = a := by
            rw [← hk]
          rw [this]
          exact List.mem_cons_self a t
        · intro e' he'
          have h0 := h1 e' he'
          rw [heq] at h0
          simp at h0
          omega
  · rw [heq] at h
    simp only at h
    have hk : e.1 = k := by simpa using h
    refine ⟨e.2.1, e.2.2, ?_, ?_⟩
    · have : (k, e.2.1, e.2.2) = e := by
        rw [← hk]
      rw [this]
      exact he
    · intro e' he'
      have h0 := h1 e' he'
      rw [heq] at h0
      simpa using h0

/-- C2 (amended): for every document, language and `HashMap` iteration
order (any permutation of the computed `nodes_scores`), the node
`calculate_best_node` returns carries a maximal accumulated score among all
scored ancestors.  The tie-break between equal maximal scores, however, is
whichever tied entry the iteration order yields first (see the
counterexample), not a documented lowest-index rule. -/
theorem calculate_best_node_winner_has_max_score (d : Doc) (data : StopwordData)
    (lang : Language) (iter : List (Nat × Nat × Nat)) (k : Nat)
    (hperm : iter.Perm (nodes_scores d data lang))
    (h : calculate_best_node d data lang iter = some k) :
    ∃ s c, (k, s, c) ∈ nodes_scores d data lang ∧
      ∀ e ∈ nodes_scores d data lang, e.2.1 ≤ s := by
  obtain ⟨s, c, hm, hall⟩ := selectBest_max iter k h
  exact ⟨s, c, hperm.mem_iff.mp hm, fun e he => hall e (hperm.mem_iff.mpr he)⟩

/-- Witness for C2's amended theorem on the concrete fixture `tieDoc`. -/
theorem calculate_best_node_winner_has_max_score_witness :
    (nodes_scores tieDoc testData Language.english).Perm
      (nodes_scores tieDoc testData Language.english) ∧
    calculate_best_node tieDoc testData Language.english
      (nodes_scores tieDoc testData Language.english) = some 2 ∧
    ∃ s c, (2, s, c) ∈ nodes_scores tieDoc testData Language.english ∧
      ∀ e ∈ nodes_scores tieDoc testData Language.english, e.2.1 ≤ s :=
  ⟨List.Perm.refl _, by decide,
    calculate_best_node_winner_has_max_score tieDoc testData Language.english
      (nodes_scores tieDoc testData Language.english) 2 (List.Perm.refl _) (by decide)⟩

/-- C5: whenever the domain-validity check fails, both classifiers reject
the candidate, regardless of its path, segments, extension, slug or date
pattern. -/
theorem invalid_domain_rejects_both (u base : Url)
    (h : is_valid_domain u base = false) :
    is_article u base = false ∧ is_category u base = false := by
  constructor
  · unfold is_article
    rw [h]
    simp
  · unfold is_category
    rw [h]
    simp

/-- Witness for C5 at a candidate on a foreign domain. -/
theorem invalid_domain_rejects_both_witness :
    is_valid_domain foreignUrl homeBase = false ∧
    (is_article foreignUrl homeBase = false ∧ is_category foreignUrl homeBase = false) :=
  ⟨by decide, invalid_domain_rejects_both foreignUrl homeBase (by decide)⟩

/-- C10: under an unrecognized (`Other`) language there is no stop-word
list, every stop-word count is unavailable, the scorer keeps no candidate
and finds no body node (for every `HashMap` iteration order), and the
extracted body text is absent. -/
theorem other_language_yields_no_body (d : Doc) (data : StopwordData) (s : String)
    (txt : String) (iter : List (Nat × Nat × Nat))
    (hperm : iter.Perm (nodes_scores d data (.other s))) :
    Language.stopwords data (.other s) = none ∧
    Language.stopword_count data (.other s) txt = none ∧
    txt_nodes d data (.other s) = [] ∧
    nodes_scores d data (.other s) = [] ∧
    calculate_best_node d data (.other s) iter = none ∧
    extract_text d data (.other s) iter = none := by
  have hsw : Language.stopwords data (.other s) = none := rfl
  have hcount : ∀ t, Language.stopword_count data (.other s) t = none := by
    intro t
    unfold Language.stopword_count
    rw [hsw]
  have htn : txt_nodes d data (.other s) = [] := by
    unfold txt_nodes
    rw [List.filterMap_eq_nil_iff]
    intro n _
    cases hfc : first_children_text d n with
    | none => simp
    | some t => simp [hcount]
  have hns : nodes_scores d data (.other s) = [] := by
    unfold nodes_scores candidateEntries
    rw [htn]
    rfl
  have hiter : iter = [] := by
    rw [hns] at hperm
    exact List.Perm.eq_nil hperm
  have hcalc : calculate_best_node d data (.other s) iter = none := by
    rw [hiter]
    rfl
  exact ⟨hsw, hcount txt, htn, hns, hcalc, by rw [extract_text, hcalc]; rfl⟩

/-- Witness for C10 on the concrete fixture `tieDoc`. -/
theorem other_language_yields_no_body_witness :
    ([] : List (Nat × Nat × Nat)).Perm (nodes_scores tieDoc testData (.other "xx")) ∧
    (Language.stopwords testData (.other "xx") = none ∧
     Language.stopword_count testData (.other "xx") "the of" = none ∧
     txt_nodes tieDoc testData (.other "xx") = [] ∧
     nodes_scores tieDoc testData (.other "xx") = [] ∧
     calculate_best_node tieDoc testData (.other "xx") [] = none ∧
     extract_text tieDoc testData (.other "xx") [] = none) :=
  ⟨by decide,
    other_language_yields_no_body tieDoc testData "xx" "the of" [] (by decide)⟩


/-- The normalized numerator is non-negative when both inputs are. -/
theorem F64.mk'_num_nonneg {n d : Int} (hn : 0 ≤ n) (hd : 0 ≤ d) :
    0 ≤ (F64.mk' n d).num := by
  unfold F64.mk'
  have h1 : decide (n < 0) = false := decide_eq_false (not_lt.mpr hn)
  have h2 : decide (d < 0) = false := decide_eq_false (not_lt.mpr hd)
  simp only [h1, h2]
  exact Int.natCast_nonneg _

/-- The normalized numerator is non-positive for a non-positive numerator
and non-negative denominator. -/
theorem F64.mk'_num_nonpos {n d : Int} (hn : n ≤ 0) (hd : 0 ≤ d) :
    (F64.mk' n d).num ≤ 0 := by
  unfold F64.mk'
  have h2 : decide (d < 0) = false := decide_eq_false (not_lt.mpr hd)
  simp only [h2]
  rcases lt_or_eq_of_le hn with hlt | heq
  · have h1 : decide (n < 0) = true := decide_eq_true hlt
    simp only [h1]
    show -(((n.natAbs / _ : Nat) : Int)) ≤ 0
    exact neg_nonpos_of_nonneg (Int.natCast_nonneg _)
  · have h1 : decide (n < 0) = false := decide_eq_false (by omega)
    simp only [h1]
    have hz : n.natAbs = 0 := by omega
    simp [hz]

/-- A square multiplied by minus one is non-positive. -/
theorem boost_penalty_num_nonpos (x : F64) :
    (F64.mul (F64.mul x x) (F64.neg (F64.ofNat 1))).num ≤ 0 := by
  have hsq : 0 ≤ (F64.mul x x).num := by
    unfold F64.mul
    exact F64.mk'_num_nonneg (mul_self_nonneg _) (Int.natCast_nonneg _)
  rw [F64.mul]
  apply F64.mk'_num_nonpos ?_ (Int.natCast_nonneg _)
  have hne : (F64.neg (F64.ofNat 1)).num = -1 := rfl
  rw [hne]
  nlinarith [hsq]

/-- The saturating cast annihilates negative values. -/
theorem f64_as_usize_neg (q : F64) (h : q.num < 0) : f64_as_usize q = 0 := by
  unfold f64_as_usize
  rw [if_pos h]

/-- In the positional-penalty zone the boost is the clamp value `5` or a
non-positive quadratic penalty. -/
theorem boostOf_penalty (d : Doc) (data : StopwordData) (lang : Language)
    (n i : Nat) (sb : F64) (node : Nat) (h15 : n > 15)
    (hle : F64.le (F64.ofNat (n - i))
      (F64.mul (F64.ofNat n) (F64.div (F64.ofNat 1) (F64.ofNat 4))) = true) :
    boostOf d data lang n i sb node = F64.ofNat 5 ∨
      (boostOf d data lang n i sb node).num ≤ 0 := by
  unfold boostOf
  simp only []
  rw [if_pos h15, if_pos hle]
  split
  · exact Or.inl rfl
  · exact Or.inr (boost_penalty_num_nonpos _)

/-- Every entry produced by the scoring loop combines its stop-word count
and boost through the saturating cast. -/
theorem candidateEntriesAux_spec (d : Doc) (data : StopwordData) (lang : Language)
    (n : Nat) :
    ∀ (l : List (Nat × WordsStats)) (i0 : Nat) (sb : F64) (e : CandidateScore),
      e ∈ candidateEntriesAux d data lang n l i0 sb →
      (e.upscore = e.stats.stopword_count + f64_as_usize e.boost ∧
       (e.boost.num < 0 → e.upscore = e.stats.stopword_count) ∧
       (n > 15 →
         F64.le (F64.ofNat (n - e.pos))
           (F64.mul (F64.ofNat n) (F64.div (F64.ofNat 1) (F64.ofNat 4))) = true →
         e.boost = F64.ofNat 5 ∨ e.boost.num ≤ 0)) := by
  intro l
  induction l with
  | nil =>
      intro i0 sb e he
      simp [candidateEntriesAux] at he
  | cons x rest ih =>
      intro i0 sb e he
      obtain ⟨node, stats⟩ := x
      rw [candidateEntriesAux] at he
      rcases List.mem_cons.mp he with rfl | he'
      · refine ⟨rfl, ?_, ?_⟩
        · intro hneg
          have h1 : f64_as_usize (boostOf d data lang n i0 sb node) = 0 :=
            f64_as_usize_neg _ hneg
          show stats.stopword_count + f64_as_usize (boostOf d data lang n i0 sb node)
              = stats.stopword_count
          rw [h1]
          exact Nat.add_zero _
        · intro h15 hle
          exact boostOf_penalty d data lang n i0 sb node h15 hle
      · exact ih (i0 + 1) (nextSb d data lang sb node) e he'

/-- C3 (amended): every candidate contributes
`upscore = stopword_count + (boost as usize)`, where the cast saturates:
a negative boost contributes zero, so the contribution then EQUALS the
stop-word count rather than falling strictly below it; and in the
positional-penalty zone (more than 15 candidates, last quarter) the boost
is the non-positive quadratic penalty or its clamp value 5. -/
theorem upscore_uses_saturating_cast (d : Doc) (data : StopwordData)
    (lang : Language) (e : CandidateScore)
    (he : e ∈ candidateEntries d data lang) :
    e.upscore = e.stats.stopword_count + f64_as_usize e.boost ∧
    (e.boost.num < 0 → e.upscore = e.stats.stopword_count) ∧
    ((txt_nodes d data lang).length > 15 →
      F64.le (F64.ofNat ((txt_nodes d data lang).length - e.pos))
        (F64.mul (F64.ofNat (txt_nodes d data lang).length)
          (F64.div (F64.ofNat 1) (F64.ofNat 4))) = true →
      e.boost = F64.ofNat 5 ∨ e.boost.num ≤ 0) :=
  candidateEntriesAux_spec d data lang (txt_nodes d data lang).length
    (txt_nodes d data lang) 0 (F64.ofNat 1) e he

/-- Witness for C3's amended theorem: the last candidate of `penaltyDoc`. -/
theorem upscore_uses_saturating_cast_witness :
    (⟨15, 33, ⟨3, 3⟩, ⟨-9, 1⟩, 3⟩ : CandidateScore) ∈
      candidateEntries penaltyDoc testData Language.english ∧
    ((3 : Nat) = 3 + f64_as_usize ⟨-9, 1⟩ ∧
     ((⟨-9, 1⟩ : F64).num < 0 → (3 : Nat) = 3) ∧
     ((txt_nodes penaltyDoc testData Language.english).length > 15 →
       F64.le (F64.ofNat ((txt_nodes penaltyDoc testData Language.english).length - 15))
         (F64.mul (F64.ofNat (txt_nodes penaltyDoc testData Language.english).length)
           (F64.div (F64.ofNat 1) (F64.ofNat 4))) = true →
       (⟨-9, 1⟩ : F64) = F64.ofNat 5 ∨ (⟨-9, 1⟩ : F64).num ≤ 0)) :=
  ⟨by decide,
    upscore_uses_saturating_cast penaltyDoc testData Language.english
      ⟨15, 33, ⟨3, 3⟩, ⟨-9, 1⟩, 3⟩ (by decide)⟩

/-- C6 (amended): a candidate that passes the frame, domain, blacklist and
extension checks is accepted as an article whenever its trailing slug has
MORE THAN FOUR DASHES or more than four underscores (i.e. at least six
tokens) and no token split on the dominant delimiter equals the
second-level domain label; the acceptance does not consult the date or
good-segment rules. -/
theorem slug_rule_accepts (u base : Url) (segs : List String) (last_segment : String)
    (hframe : strStartsWith u.path "#" = false)
    (hdom : is_valid_domain u base = true)
    (hsegs : u.pathSegments = some segs)
    (hbad : segs.any (fun s => BAD_SEGMENTS.contains (strLower (strLower s))) = false)
    (hlast : (segs.filterMap (fun s =>
        let s := strLower (strLower s)
        if strIsEmpty s then none else some s)).getLast? = some last_segment)
    (hext : splitExt last_segment = none)
    (hcount : (count_dashes_and_underscores last_segment).1 > 4 ∨
              (count_dashes_and_underscores last_segment).2 > 4)
    (htok : match u.host with
        | some (UrlHost.domain domain) =>
            match ((splitOnChar '.' domain).reverse).get? 1 with
            | some dom =>
                (splitOnChar
                    (if (count_dashes_and_underscores last_segment).2 >
                        (count_dashes_and_underscores last_segment).1 then '_' else '-')
                    last_segment).all (fun s => s != dom) = true
            | none => True
        | _ => True) :
    is_article u base = true := by
  have hslug : slugAccepts u last_segment = true := by
    unfold slugAccepts
    have hcond : ((count_dashes_and_underscores last_segment).1 > 4 ||
        (count_dashes_and_underscores last_segment).2 > 4) = true := by
      rcases hcount with h | h <;> simp [h]
    rw [if_pos hcond]
    cases hh : u.host with
    | none => rfl
    | some host =>
        cases host with
        | ip a => rfl
        | domain domain =>
            rw [hh] at htok
            dsimp only at htok ⊢
            cases hget : ((splitOnChar '.' domain).reverse).get? 1 with
            | none => rfl
            | some dom =>
                rw [hget] at htok
                dsimp only at htok
                exact htok
  unfold is_article
  rw [hsegs]
  simp only [hframe, Bool.false_eq_true, if_false, hdom, Bool.not_true, hbad]
  rw [hlast]
  simp only [hext]
  unfold articleSlugDates
  rw [List.getLast?_concat]
  simp [hslug]

/-- Witness for C6's amended theorem: the six-token slug from the source's
own test suite is accepted. -/
theorem slug_rule_accepts_witness :
    strStartsWith slugUrl.path "#" = false ∧
    is_valid_domain slugUrl slugBase = true ∧
    slugUrl.pathSegments = some ["hmm-some-very-long-title-speparated"] ∧
    (count_dashes_and_underscores "hmm-some-very-long-title-speparated").1 > 4 ∧
    is_article slugUrl slugBase = true :=
  ⟨by decide, by decide, by decide, by decide, by
    apply slug_rule_accepts slugUrl slugBase ["hmm-some-very-long-title-speparated"]
      "hmm-some-very-long-title-speparated" (by decide) (by decide) (by decide)
      (by decide) (by decide) (by decide) (Or.inl (by decide))
    show (splitOnChar
        (if (count_dashes_and_underscores "hmm-some-very-long-title-speparated").2 >
            (count_dashes_and_underscores "hmm-some-very-long-title-speparated").1
         then '_' else '-')
        "hmm-some-very-long-title-speparated").all (fun s => s != "extrablatt") = true
    decide⟩


theorem pruneBad_elem_shape (m : String) (at2 : List (String × String))
    (cs2 : List HTree) :
    ∃ cs', pruneBad (.elem m at2 cs2) = .elem m at2 cs' := by
  rw [pruneBad]
  split
  · exact ⟨[], rfl⟩
  · exact ⟨pruneBadList cs2, rfl⟩

mutual

theorem recurText_pruneBad : ∀ (t : HTree) (txt : String),
    recurText (pruneBad t) txt = recurText t txt
  | .text s, _ => rfl
  | .elem n attrs cs, txt => by
      rw [pruneBad]
      by_cases hC : has_bad_attr (HTree.elem n attrs cs) = true
      · rw [if_pos hC]
        simp only [recurText, is_bad_node, has_bad_attr, HTree.tagName]
        by_cases h1 : BAD_NODE_NAMES.contains n = true
        · have h1m : n ∈ BAD_NODE_NAMES := by simpa using h1
          simp [h1m]
        · have h1m : ¬ (n ∈ BAD_NODE_NAMES) := by simpa using h1
          have h2 : has_bad_attr_list attrs = true := hC
          simp [h1m, h2]
      · rw [if_neg hC]
        have h2 : has_bad_attr_list attrs = false := by
          simpa using hC
        have hcl := childLoop_pruneBadList cs
        by_cases h1 : BAD_NODE_NAMES.contains n = true
        · have h1m : n ∈ BAD_NODE_NAMES := by simpa using h1
          simp only [recurText, is_bad_node, HTree.tagName]
          simp [h1m]
        · have h1m : ¬ (n ∈ BAD_NODE_NAMES) := by simpa using h1
          simp only [recurText, is_bad_node, has_bad_attr, HTree.tagName,
            HTree.children, is_para]
          simp [h1m, h2, hcl]

theorem childLoop_pruneBadList : ∀ (cs : List HTree) (txt : String) (a w : Bool),
    childLoop (pruneBadList cs) txt a w = childLoop cs txt a w
  | [], _, _, _ => rfl
  | c :: rest, txt, a, w => by
      have ih := childLoop_pruneBadList rest
      rw [pruneBadList]
      cases c with
      | text s =>
          rw [show pruneBad (HTree.text s) = HTree.text s from rfl]
          simp only [childLoop]
          simp only [ih]
      | elem m at2 cs2 =>
          obtain ⟨cs', hcs'⟩ := pruneBad_elem_shape m at2 cs2
          have hrt := recurText_pruneBad (HTree.elem m at2 cs2)
          rw [hcs'] at hrt
          rw [hcs']
          simp only [childLoop]
          simp only [hrt, ih]

end

/-- C9: the document cleaner's output is unchanged when the children of
every node whose id, class or name attribute matches the boiler-plate
pattern are removed — such a node and all its descendants (nested
paragraphs included) contribute no text to the extracted result. -/
theorem clean_node_text_ignores_bad_attr_subtrees (t : HTree) :
    clean_node_text (pruneBad t) = clean_node_text t := by
  unfold clean_node_text
  rw [recurText_pruneBad]


/-- Writing one key of the state map leaves every other key's entry
unchanged. -/
theorem lookup_setState_ne {C D : Type} [DecidableEq C] (m : List (C × DDState D))
    (cat k : C) (v : DDState D) (h : k ≠ cat) :
    lookupState (setState m cat v) k = lookupState m k := by
  induction m with
  | nil => rfl
  | cons e t ih =>
      unfold lookupState setState at ih ⊢
      simp only [List.map_cons]
      by_cases h1 : e.1 = cat
      · rw [if_pos h1]
        rw [List.find?_cons_of_neg (p := fun x : C × DDState D => decide (x.1 = k))
            (a := (cat, v)) _ (by simp [Ne.symm h])]
        rw [List.find?_cons_of_neg (p := fun x : C × DDState D => decide (x.1 = k))
            (a := e) _ (by simp [h1, Ne.symm h])]
        exact ih
      · rw [if_neg h1]
        by_cases h2 : e.1 = k
        · rw [List.find?_cons_of_pos (p := fun x : C × DDState D => decide (x.1 = k))
              (a := e) _ (by simp [h2])]
          rw [List.find?_cons_of_pos (p := fun x : C × DDState D => decide (x.1 = k))
              (a := e) _ (by simp [h2])]
        · rw [List.find?_cons_of_neg (p := fun x : C × DDState D => decide (x.1 = k))
              (a := e) _ (by simp [h2])]
          rw [List.find?_cons_of_neg (p := fun x : C × DDState D => decide (x.1 = k))
              (a := e) _ (by simp [h2])]
          exact ih

/-- `or_insert` never changes the entry of a key already present. -/
theorem lookup_orInsert {U D : Type} [DecidableEq U] (arts : List (U × DDState D))
    (u' u : U) (st : DDState D) (h : lookupState arts u = some st) :
    lookupState (orInsert arts u') u = some st := by
  unfold orInsert
  split
  · exact h
  · unfold lookupState at h ⊢
    obtain ⟨e, hfind, he2⟩ :
        ∃ e, List.find? (fun e => decide (e.1 = u)) arts = some e ∧ e.2 = st := by
      cases hf : List.find? (fun e => decide (e.1 = u)) arts with
      | none => rw [hf] at h; simp at h
      | some e => rw [hf] at h; exact ⟨e, rfl, by simpa using h⟩
    rw [List.find?_append, hfind]
    simp [he2]

/-- `insert_article_urls` never changes the entry of a key already
present. -/
theorem lookup_insert_article_urls {U D : Type} [DecidableEq U]
    (articleUrls : D → List U) (doc : D) (arts : List (U × DDState D))
    (u : U) (st : DDState D) (h : lookupState arts u = some st) :
    lookupState (insert_article_urls articleUrls arts doc) u = some st := by
  unfold insert_article_urls
  generalize articleUrls doc = us
  induction us generalizing arts with
  | nil => exact h
  | cons x xs ih =>
      rw [List.foldl_cons]
      exact ih _ (lookup_orInsert _ _ _ _ h)

/-- One category-result step never changes an existing article entry. -/
theorem downloadCategoryStep_arts {B C D U : Type} [DecidableEq C] [DecidableEq U]
    (cfg : Bool) (parse : B → Option D) (aU : D → List U)
    (oracle : C → HttpResp B × Nat)
    (st : List (C × DDState D) × List (U × DDState D)) (cat : C)
    (u : U) (s : DDState D) (h : lookupState st.2 u = some s) :
    lookupState (downloadCategoryStep cfg parse aU oracle st cat).2 u = some s := by
  simp only [downloadCategoryStep]
  cases hfr : from_response parse (oracle cat).1 (oracle cat).2 with
  | ok p =>
      obtain ⟨doc, received⟩ := p
      exact lookup_insert_article_urls _ _ _ _ _ h
  | error pe =>
      obtain ⟨state, err⟩ := pe
      dsimp only
      split
      · cases hadv : advance_non_http_success parse err (oracle cat).2 with
        | ok p => obtain ⟨doc, received⟩ := p; exact h
        | error e => exact h
      · exact h

/-- One category-result step only writes the fetched category's entry. -/
theorem downloadCategoryStep_cats_ne {B C D U : Type} [DecidableEq C] [DecidableEq U]
    (cfg : Bool) (parse : B → Option D) (aU : D → List U)
    (oracle : C → HttpResp B × Nat)
    (st : List (C × DDState D) × List (U × DDState D)) (cat c : C)
    (h : c ≠ cat) :
    lookupState (downloadCategoryStep cfg parse aU oracle st cat).1 c =
      lookupState st.1 c := by
  simp only [downloadCategoryStep]
  cases hfr : from_response parse (oracle cat).1 (oracle cat).2 with
  | ok p =>
      obtain ⟨doc, received⟩ := p
      exact lookup_setState_ne _ _ _ _ h
  | error pe =>
      obtain ⟨state, err⟩ := pe
      dsimp only
      split
      · cases hadv : advance_non_http_success parse err (oracle cat).2 with
        | ok p => obtain ⟨doc, received⟩ := p; exact lookup_setState_ne _ _ _ _ h
        | error e => exact lookup_setState_ne _ _ _ _ h
      · exact lookup_setState_ne _ _ _ _ h

/-- The category pass never changes an existing article entry. -/
theorem download_categories_arts {B C D U : Type} [DecidableEq C] [DecidableEq U]
    (cfg : Bool) (parse : B → Option D) (aU : D → List U)
    (oracle : C → HttpResp B × Nat) (items : List C) :
    ∀ (st : List (C × DDState D) × List (U × DDState D)) (u : U) (s : DDState D),
      lookupState st.2 u = some s →
      lookupState (items.foldl
        (downloadCategoryStep cfg parse aU oracle) st).2 u = some s := by
  induction items with
  | nil => intro st u s h; exact h
  | cons i is ih =>
      intro st u s h
      rw [List.foldl_cons]
      exact ih _ u s (downloadCategoryStep_arts cfg parse aU oracle st i u s h)

/-- The category pass leaves every category not in `items` unchanged. -/
theorem download_categories_cats {B C D U : Type} [DecidableEq C] [DecidableEq U]
    (cfg : Bool) (parse : B → Option D) (aU : D → List U)
    (oracle : C → HttpResp B × Nat) (items : List C) :
    ∀ (st : List (C × DDState D) × List (U × DDState D)) (c : C),
      (∀ x ∈ items, x ≠ c) →
      lookupState (items.foldl
        (downloadCategoryStep cfg parse aU oracle) st).1 c = lookupState st.1 c := by
  induction items with
  | nil => intro st c _; rfl
  | cons i is ih =>
      intro st c hne
      rw [List.foldl_cons]
      have h1 : i ≠ c := hne i (List.mem_cons_self i is)
      have h2 : ∀ x ∈ is, x ≠ c := fun x hx => hne x (List.mem_cons_of_mem i hx)
      rw [ih _ c h2]
      exact downloadCategoryStep_cats_ne cfg parse aU oracle st i c (Ne.symm h1)

/-- In a map with distinct keys, entries are determined by their key. -/
theorem nodup_key_state_unique {C D : Type} (m : List (C × DDState D))
    (hnd : (m.map Prod.fst).Nodup) :
    ∀ e₁ ∈ m, ∀ e₂ ∈ m, e₁.1 = e₂.1 → e₁ = e₂ := by
  induction m with
  | nil => intro e₁ h1; simp at h1
  | cons a t ih =>
      rw [List.map_cons, List.nodup_cons] at hnd
      intro e₁ h1 e₂ h2 hk
      rcases List.mem_cons.mp h1 with rfl | h1'
      · rcases List.mem_cons.mp h2 with rfl | h2'
        · rfl
        · exact absurd (hk ▸ List.mem_map_of_mem Prod.fst h2') hnd.1
      · rcases List.mem_cons.mp h2 with rfl | h2'
        · exact absurd (hk ▸ List.mem_map_of_mem Prod.fst h1') hnd.1
        · exact ih hnd.2 e₁ h1' e₂ h2' hk

/-- `download_articles` rewrites only `NotRequested` entries. -/
theorem download_articles_preserves {B D U : Type} [DecidableEq U]
    (cfg : Bool) (parse : B → Option D) (oracle : U → HttpResp B × Nat) :
    ∀ (arts : List (U × DDState D)) (u : U) (st : DDState D),
      lookupState arts u = some st → st.is_not_requested = false →
      lookupState (download_articles cfg parse oracle arts) u = some st := by
  intro arts
  induction arts with
  | nil => intro u st h _; simp [lookupState] at h
  | cons e t ih =>
      intro u st h hnr
      unfold download_articles at ih ⊢
      unfold lookupState at h ⊢
      simp only [List.map_cons]
      by_cases h1 : e.1 = u
      · rw [List.find?_cons_of_pos (p := fun x : U × DDState D => decide (x.1 = u))
            (a := e) _ (by simp [h1])] at h
        have hst : e.2 = st := by simpa using h
        have he : (if e.2.is_not_requested = true then
            (e.1, articleNewState cfg parse (oracle e.1).1 (oracle e.1).2) else e) = e := by
          rw [if_neg]
          rw [hst, hnr]
          simp
        rw [he]
        rw [List.find?_cons_of_pos (p := fun x : U × DDState D => decide (x.1 = u))
            (a := e) _ (by simp [h1])]
        simpa using h
      · rw [List.find?_cons_of_neg (p := fun x : U × DDState D => decide (x.1 = u))
            (a := e) _ (by simp [h1])] at h
        have := ih u st h hnr
        unfold lookupState at this
        by_cases hnre : e.2.is_not_requested = true
        · rw [if_pos hnre]
          rw [List.find?_cons_of_neg (p := fun x : U × DDState D => decide (x.1 = u))
              _ (by simp [h1])]
          exact this
        · rw [if_neg hnre]
          rw [List.find?_cons_of_neg (p := fun x : U × DDState D => decide (x.1 = u))
              (a := e) _ (by simp [h1])]
          exact this

/-- C8: a URL in the `Success` state keeps exactly that state — same
document, same timestamp — across the non-retry passes
`download_all_outstanding_categories` (which touches only `NotRequested`
categories and only inserts, never overwrites, article entries) and
`download_articles` (which touches only `NotRequested` articles). -/
theorem download_passes_preserve_success {B C D U : Type} [DecidableEq C] [DecidableEq U]
    (cfg : Bool) (parse : B → Option D) (aU : D → List U)
    (oc : C → HttpResp B × Nat) (oa : U → HttpResp B × Nat)
    (cats : List (C × DDState D)) (arts : List (U × DDState D))
    (c : C) (u : U) (t1 t2 : Nat) (dc du : D)
    (hnodup : (cats.map Prod.fst).Nodup)
    (hc : lookupState cats c = some (.success t1 dc))
    (ha : lookupState arts u = some (.success t2 du)) :
    lookupState (download_all_outstanding_categories cfg parse aU oc cats arts).1 c =
      some (.success t1 dc) ∧
    lookupState (download_all_outstanding_categories cfg parse aU oc cats arts).2 u =
      some (.success t2 du) ∧
    lookupState (download_articles cfg parse oa arts) u = some (.success t2 du) := by
  have hitems : ∀ x ∈ cats.filterMap
      (fun e => if e.2.is_not_requested then some e.1 else none), x ≠ c := by
    intro x hx
    obtain ⟨e, he, hex⟩ := List.mem_filterMap.mp hx
    have hnr : e.2.is_not_requested = true ∧ e.1 = x := by
      by_cases hb : e.2.is_not_requested = true
      · rw [if_pos hb] at hex
        exact ⟨hb, by injection hex⟩
      · rw [if_neg hb] at hex
        cases hex
    intro hxc
    obtain ⟨e₀, hf0⟩ : ∃ e₀, List.find? (fun e => decide (e.1 = c)) cats = some e₀ := by
      unfold lookupState at hc
      cases hf : List.find? (fun e => decide (e.1 = c)) cats with
      | none => rw [hf] at hc; simp at hc
      | some e₀ => exact ⟨e₀, rfl⟩
    have he0mem := List.mem_of_find?_eq_some hf0
    have he0key : e₀.1 = c := by simpa using List.find?_some hf0
    have he0val : e₀.2 = DDState.success t1 dc := by
      unfold lookupState at hc
      rw [hf0] at hc
      simpa using hc
    have heq := nodup_key_state_unique cats hnodup e he e₀ he0mem
      (by rw [hnr.2, hxc, he0key])
    have hnr1 := hnr.1
    rw [heq, he0val] at hnr1
    simp [DDState.is_not_requested] at hnr1
  refine ⟨?_, ?_, ?_⟩
  · unfold download_all_outstanding_categories download_categories
    rw [download_categories_cats cfg parse aU oc _ _ c hitems]
    exact hc
  · unfold download_all_outstanding_categories download_categories
    exact download_categories_arts cfg parse aU oc _ _ u _ ha
  · exact download_articles_preserves cfg parse oa arts u _ ha rfl

/-- Witness for C8 on concrete two-entry maps. -/
theorem download_passes_preserve_success_witness :
    (([(1, DDState.success 0 5), (2, DDState.notRequested)] :
        List (Nat × DDState Nat)).map Prod.fst).Nodup ∧
    lookupState ([(1, DDState.success 0 5), (2, DDState.notRequested)] :
        List (Nat × DDState Nat)) 1 = some (DDState.success 0 5) ∧
    lookupState ([(3, DDState.success 0 7), (4, DDState.notRequested)] :
        List (Nat × DDState Nat)) 3 = some (DDState.success 0 7) ∧
    (lookupState (download_all_outstanding_categories true (fun _ : Nat => (none : Option Nat))
        (fun _ => []) (fun _ => (HttpResp.reqErr, 0))
        [(1, DDState.success 0 5), (2, DDState.notRequested)]
        [(3, DDState.success 0 7), (4, DDState.notRequested)]).1 1 =
      some (DDState.success 0 5) ∧
    lookupState (download_all_outstanding_categories true (fun _ : Nat => (none : Option Nat))
        (fun _ => []) (fun _ => (HttpResp.reqErr, 0))
        [(1, DDState.success 0 5), (2, DDState.notRequested)]
        [(3, DDState.success 0 7), (4, DDState.notRequested)]).2 3 =
      some (DDState.success 0 7) ∧
    lookupState (download_articles true (fun _ : Nat => (none : Option Nat))
        (fun _ => (HttpResp.reqErr, 0))
        [(3, DDState.success 0 7), (4, DDState.notRequested)]) 3 =
      some (DDState.success 0 7)) :=
  ⟨by decide, by decide, by decide,
    download_passes_preserve_success true (fun _ => none) (fun _ => [])
      (fun _ => (HttpResp.reqErr, 0)) (fun _ => (HttpResp.reqErr, 0))
      [(1, DDState.success 0 5), (2, DDState.notRequested)]
      [(3, DDState.success 0 7), (4, DDState.notRequested)]
      1 3 0 0 5 7 (by decide) (by decide) (by decide)⟩

end Extrablatt
